import Mathlib

/-!
# Verification of the eol-scanner core (catalog store, sync engine, resolver, EOL evaluator)

Shallow embedding of the Go sources of `j0356/eol-scanner`:

* `core/scanning/scanning.go` — the scanner: `checkComponent`, `evaluateEOLStatus`,
  `matchesVersion`, `matchesMajorVersion`, `extractMajorVersion`, `checkDBNeedsUpdate`.
* `core/db` (`db_management.go`) — the SQLite-backed catalog store:
  `UpsertCategory`, `UpsertProduct`, `UpsertCycle`, `UpsertIdentifiers`, `FullSync`,
  `GetProductCycles`, `GetProductIdentifiers`, `LookupByPURL`, `LookupByName`,
  `normalizePackageName`, `GetStats` (the part read by `checkDBNeedsUpdate`).

Modelling conventions:

* Go strings are Lean `String`s; most character-level operations are defined on
  `List Char` (via `String.data`) with structural recursion so that all concrete
  computations reduce by `decide`/`rfl`.
* SQL `NULL`-able columns are `Option _`.  A Go `string` bound as a SQL parameter is
  never `NULL` (an empty Go string binds as `''`), which the embedding makes explicit
  by binding `some s` wherever the Go code passes a plain string.
* Time instants (`time.Time`) are `Int` seconds since the civil epoch used by the
  days-from-civil algorithm; `time.Time.Sub`/`Before`/`Equal`/`AddDate(0,0,n)` become
  integer subtraction/comparison/addition of `n * 86400`.  `time.Now()` becomes an
  explicit `today`/`now` parameter.
* The SQLite tables are Lean lists of row structures; `INSERT` appends, and
  `ON CONFLICT ... DO UPDATE` replaces the (unique) conflicting row in place.
  `created_at`/`updated_at` audit columns are not modelled.
* `computeHash` (an MD5 hex digest of the `json.Marshal` serialization) is modelled
  by the serialization itself (`encodeRelease`): the digest is a deterministic
  function of the serialization, and every property proved here uses only the fact
  that equal payloads hash equal, which the serialization realizes directly.
-/

/-! ## Character/string helpers (ASCII, structurally recursive) -/

/-- ASCII lower-casing of one character, as done by SQLite's `LOWER` and by the
`LIKE` operator's default case folding (both are ASCII-only). -/
def toLowerChar (c : Char) : Char :=
  if 'A' ≤ c ∧ c ≤ 'Z' then Char.ofNat (c.toNat + 32) else c

/-- ASCII lower-casing of a character list. -/
def lowerL (l : List Char) : List Char := l.map toLowerChar

/-- `containsL needle hay`: does `hay` contain `needle` as a contiguous sublist?
This is SQLite `hay LIKE '%' || needle || '%'` for patterns without wildcards
(modulo `LIKE`'s case folding, applied separately via `lowerL`). -/
def containsL (needle : List Char) : List Char → Bool
  | [] => needle.isEmpty
  | c :: rest => needle.isPrefixOf (c :: rest) || containsL needle rest

/-- Split a character list on a single separator character; mirrors Go's
`strings.Split` for a one-character separator (always returns at least one part). -/
def splitOnChar (sep : Char) : List Char → List (List Char)
  | [] => [[]]
  | c :: rest =>
    let r := splitOnChar sep rest
    if c == sep then [] :: r
    else
      match r with
      | h :: t => (c :: h) :: t
      | [] => [[c]]

/-- Drop a given suffix (by length) from a character list: `l.take (l.length - n)`. -/
def dropLastL (l : List Char) (n : Nat) : List Char := l.take (l.length - n)

/-! ## The scanner's pure version-matching functions (`scanning.go`) -/

/-- `matchesVersion` (scanning.go:398-410): the version matches a cycle name when it
is equal to it, or starts with the cycle name followed by `"."` or `"-"`. -/
def matchesVersion (version cycle : String) : Bool :=
  version == cycle
    || (cycle.data ++ ['.']).isPrefixOf version.data
    || (cycle.data ++ ['-']).isPrefixOf version.data

/-- The loop body of `extractMajorVersion` (scanning.go:427-432): for each separator
in order, split and return the first part if the split is non-empty (it always is,
so only the first separator `"."` is ever used — the `"-"`/`"_"` iterations are
dead code, as the repository's own tests record). -/
def extractMajorLoop (v : List Char) : List Char → List Char
  | [] => v
  | sep :: seps =>
    match splitOnChar sep v with
    | p :: _ => p
    | [] => extractMajorLoop v seps

/-- `extractMajorVersion` (scanning.go:422-434): strip one leading `'v'`, then return
the part before the first separator. -/
def extractMajorVersion (version : String) : String :=
  let v := if version.data.take 1 == ['v'] then version.data.drop 1 else version.data
  String.mk (extractMajorLoop v ['.', '-', '_'])

/-- `matchesMajorVersion` (scanning.go:413-419). -/
def matchesMajorVersion (version cycle : String) : Bool :=
  let vMajor := extractMajorVersion version
  let cMajor := extractMajorVersion cycle
  vMajor != "" && vMajor == cMajor

-- Spec-side reference definitions for claim C7 ("strips one leading 'v' from each
-- string and compares their leading dot-separated tokens").

/-- Modelled from the spec's words (not from the source): strip one leading `'v'`. -/
def specStripLeadingV (s : String) : String :=
  if s.data.take 1 == ['v'] then String.mk (s.data.drop 1) else s

/-- Modelled from the spec's words (not from the source): the leading dot-separated
token of a string. -/
def specLeadingDotToken (s : String) : String :=
  String.mk ((splitOnChar '.' s.data).headD s.data)


/-! ## Timestamps

`time.Time` values are modelled as `Int` seconds on a proleptic-Gregorian civil
timeline (UTC).  The RFC3339 rendering that `database/sql` produces when a SQLite
`TIMESTAMP` column is scanned into a string is modelled by `formatTS`; the subset of
RFC3339 actually produced there (`YYYY-MM-DDTHH:MM:SSZ`) is what `parseRFC3339`
accepts.  `time.Parse("2006-01-02", s)` is `parseSimpleDate`. -/

/-- The decimal digit character for `n % 10`. -/
def digitChar (n : Nat) : Char := Char.ofNat (48 + n % 10)

/-- The numeric value of a decimal digit character. -/
def digitVal (c : Char) : Nat := c.toNat - 48

/-- ASCII decimal digit test. -/
def isDigitC (c : Char) : Bool := '0' ≤ c && c ≤ '9'

/-- Two-digit zero-padded rendering (for values below 100). -/
def pad2 (n : Nat) : List Char := [digitChar (n / 10), digitChar n]

/-- Four-digit zero-padded rendering (for values below 10000). -/
def pad4 (n : Nat) : List Char :=
  [digitChar (n / 1000), digitChar (n / 100), digitChar (n / 10), digitChar n]

/-- A civil UTC timestamp, the component form of a Go `time.Time`. -/
structure Timestamp where
  year : Nat
  month : Nat
  day : Nat
  hour : Nat
  minute : Nat
  second : Nat
deriving DecidableEq, Repr

/-- Component ranges of every timestamp the system writes (SQLite
`CURRENT_TIMESTAMP` values). -/
def validTS (t : Timestamp) : Prop :=
  t.year < 10000 ∧ 1 ≤ t.month ∧ t.month ≤ 12 ∧ 1 ≤ t.day ∧ t.day ≤ 31 ∧
    t.hour < 24 ∧ t.minute < 60 ∧ t.second < 60

instance (t : Timestamp) : Decidable (validTS t) := by unfold validTS; infer_instance

/-- The `YYYY-MM-DDTHH:MM:SSZ` rendering of a timestamp: the string a SQLite
`TIMESTAMP` column written by `CURRENT_TIMESTAMP` yields when scanned into a Go
string (the driver parses it to `time.Time`; `database/sql` renders that back in
RFC3339 form). -/
def formatTS (t : Timestamp) : String :=
  String.mk (pad4 t.year ++ ['-'] ++ pad2 t.month ++ ['-'] ++ pad2 t.day ++ ['T'] ++
    pad2 t.hour ++ [':'] ++ pad2 t.minute ++ [':'] ++ pad2 t.second ++ ['Z'])

/-- `time.Parse(time.RFC3339, s)` (the `Z`-offset subset that the system itself
produces; any other string is unparsable here as in Go it would be for the strings
the store actually holds). -/
def parseRFC3339 (s : String) : Option Timestamp :=
  match s.data with
  | [y3, y2, y1, y0, '-', mo1, mo0, '-', d1, d0, 'T',
     h1, h0, ':', mi1, mi0, ':', s1, s0, 'Z'] =>
    if isDigitC y3 && isDigitC y2 && isDigitC y1 && isDigitC y0 &&
        isDigitC mo1 && isDigitC mo0 && isDigitC d1 && isDigitC d0 &&
        isDigitC h1 && isDigitC h0 && isDigitC mi1 && isDigitC mi0 &&
        isDigitC s1 && isDigitC s0 then
      let y := 1000 * digitVal y3 + 100 * digitVal y2 + 10 * digitVal y1 + digitVal y0
      let mo := 10 * digitVal mo1 + digitVal mo0
      let d := 10 * digitVal d1 + digitVal d0
      let h := 10 * digitVal h1 + digitVal h0
      let mi := 10 * digitVal mi1 + digitVal mi0
      let ss := 10 * digitVal s1 + digitVal s0
      if 1 ≤ mo && mo ≤ 12 && 1 ≤ d && d ≤ 31 && h < 24 && mi < 60 && ss < 60 then
        some ⟨y, mo, d, h, mi, ss⟩
      else none
    else none
  | _ => none

/-- Day number of a civil date (Howard Hinnant's days-from-civil algorithm, with
day 0 = 1970-01-01); only ever evaluated, never reasoned about analytically. -/
def daysFromCivil (y m d : Int) : Int :=
  let y' := if m ≤ 2 then y - 1 else y
  let era := (if 0 ≤ y' then y' else y' - 399) / 400
  let yoe := y' - era * 400
  let mp := (m + 9) % 12
  let doy := (153 * mp + 2) / 5 + d - 1
  let doe := yoe * 365 + yoe / 4 - yoe / 100 + doy
  era * 146097 + doe - 719468

/-- Seconds-since-epoch of a timestamp; the instant a `time.Time` denotes. -/
def tsToSeconds (t : Timestamp) : Int :=
  daysFromCivil t.year t.month t.day * 86400 +
    (t.hour * 3600 + t.minute * 60 + t.second : Nat)

/-- `time.Parse("2006-01-02", s)` followed by taking the instant (midnight UTC), as
`evaluateEOLStatus` does at scanning.go:370. -/
def parseSimpleDate (s : String) : Option Int :=
  match s.data with
  | [y3, y2, y1, y0, '-', m1, m0, '-', d1, d0] =>
    if isDigitC y3 && isDigitC y2 && isDigitC y1 && isDigitC y0 &&
        isDigitC m1 && isDigitC m0 && isDigitC d1 && isDigitC d0 then
      let y := 1000 * digitVal y3 + 100 * digitVal y2 + 10 * digitVal y1 + digitVal y0
      let mo := 10 * digitVal m1 + digitVal m0
      let d := 10 * digitVal d1 + digitVal d0
      if 1 ≤ mo && mo ≤ 12 && 1 ≤ d && d ≤ 31 then
        some (daysFromCivil y mo d * 86400)
      else none
    else none
  | _ => none


/-! ## Upstream API data (`core/db`: `ProductData`, `Identifier`, `ReleaseData`) -/

/-- `Identifier` (db_management.go): one `{type, id}` entry of a product. -/
structure Identifier where
  idType : String
  idValue : String
deriving DecidableEq, Repr

/-- The dynamic `Latest interface{}` field of `ReleaseData`: a plain string, an
object with optional `name`/`date`/`link` strings, or anything else (`null`). -/
inductive LatestValue where
  | str : String → LatestValue
  | obj : Option String → Option String → Option String → LatestValue
  | null : LatestValue
deriving DecidableEq, Repr

/-- `ReleaseData` (db_management.go): a release/cycle as fetched from the API. -/
structure ReleaseData where
  name : String
  label : String
  codename : String
  releaseDate : String
  isEol : Option Bool
  eolFrom : String
  isEoas : Option Bool
  eoasFrom : String
  isLts : Bool
  ltsFrom : String
  latest : LatestValue
  isMaintained : Bool
deriving DecidableEq, Repr

/-- `ProductData` (db_management.go): a product as fetched from the API. -/
structure ProductData where
  name : String
  category : String
  label : String
  links : List (String × String)
  versionCommand : String
  aliases : List String
  tags : List String
  identifiers : List Identifier
  releases : List ReleaseData
deriving DecidableEq, Repr

/-- `product.Links["html"]` — empty string when the key (or the map) is absent. -/
def lookupLink (links : List (String × String)) : String :=
  match links.find? (fun kv => kv.1 == "html") with
  | some kv => kv.2
  | none => ""

/-- Concatenate with `","` separators. -/
def joinWithComma : List String → String
  | [] => ""
  | [s] => s
  | s :: rest => s ++ "," ++ joinWithComma rest

/-- `json.Marshal` of a `[]string`, as stored in the `aliases`/`tags` columns and in
`categories_synced`: a bracketed, comma-separated list of quoted entries.  (Go
renders a nil slice as `null` and an empty one as `[]`; both contain no quoted
entry, so the distinction is invisible to the alias `LIKE` match and to every
claim, and the model always uses the bracketed form.) -/
def jsonEncodeStrings (l : List String) : String :=
  "[" ++ joinWithComma (l.map (fun s => "\"" ++ s ++ "\"")) ++ "]"

/-- Serialization of an optional boolean (JSON `null`/`true`/`false`). -/
def encodeBoolOpt : Option Bool → String
  | none => "null"
  | some true => "true"
  | some false => "false"

/-- Serialization of an optional string field. -/
def encodeStrOpt : Option String → String
  | none => "null"
  | some s => "\"" ++ s ++ "\""

/-- Serialization of the `Latest` field. -/
def encodeLatest : LatestValue → String
  | .str s => "\"" ++ s ++ "\""
  | .obj n d l => "obj(" ++ encodeStrOpt n ++ "," ++ encodeStrOpt d ++ "," ++ encodeStrOpt l ++ ")"
  | .null => "null"

/-- Model of `computeHash(release)` (db_management.go:1130-1135): the MD5 hex digest
of `json.Marshal(release)` is modelled by the deterministic serialization itself —
every field in declaration order, so equal payloads serialize (hence hash)
equally. -/
def encodeRelease (r : ReleaseData) : String :=
  "name:" ++ r.name ++ ";label:" ++ r.label ++ ";codename:" ++ r.codename ++
    ";releaseDate:" ++ r.releaseDate ++ ";isEol:" ++ encodeBoolOpt r.isEol ++
    ";eolFrom:" ++ r.eolFrom ++ ";isEoas:" ++ encodeBoolOpt r.isEoas ++
    ";eoasFrom:" ++ r.eoasFrom ++ ";isLts:" ++ (if r.isLts then "true" else "false") ++
    ";ltsFrom:" ++ r.ltsFrom ++ ";latest:" ++ encodeLatest r.latest ++
    ";isMaintained:" ++ (if r.isMaintained then "true" else "false")

/-! ## The catalog store (the SQLite tables of `initDatabase`) -/

/-- A row of the `categories` table. -/
structure CategoryRow where
  rid : Nat
  name : String
  label : Option String
  totalProducts : Int
deriving DecidableEq, Repr

/-- A row of the `products` table. -/
structure ProductRow where
  rid : Nat
  name : String
  categoryId : Option Nat
  categoryName : Option String
  label : Option String
  link : Option String
  versionCommand : Option String
  aliases : Option String
  tags : Option String
deriving DecidableEq, Repr

/-- A row of the `cycles` table (the columns `GetProductCycles` selects, plus the
`link` and `data_hash` columns `UpsertCycle` writes). -/
structure CycleRow where
  productId : Nat
  cycle : String
  cycleLabel : Option String
  codename : Option String
  releaseDate : Option String
  eol : Option String
  eolBoolean : Option Int
  latestVersion : Option String
  latestReleaseDate : Option String
  lts : Int
  ltsFrom : Option String
  support : Option String
  supportBoolean : Option Int
  isMaintained : Int
  link : Option String
  dataHash : Option String
deriving DecidableEq, Repr

/-- A row of the `identifiers` table. -/
structure IdentifierRow where
  productId : Nat
  idType : String
  idValue : String
deriving DecidableEq, Repr

/-- The singleton `sync_metadata` record. -/
structure SyncMetadataRow where
  lastFullSync : Option String
  lastUpdateCheck : Option String
  categoriesSynced : Option String
  productsCount : Int
  cyclesCount : Int
  identifiersCount : Int
deriving DecidableEq, Repr

/-- The whole store.  `nextCategoryId`/`nextProductId` model the `AUTOINCREMENT`
counters. -/
structure Store where
  categories : List CategoryRow
  products : List ProductRow
  cycles : List CycleRow
  identifiers : List IdentifierRow
  syncMeta : SyncMetadataRow
  nextCategoryId : Nat
  nextProductId : Nat
deriving DecidableEq, Repr

/-- A freshly initialized database (`initDatabase`): empty tables and the
`INSERT OR IGNORE` sync-metadata row of `NULL`s and zeros. -/
def emptyStore : Store :=
  { categories := [], products := [], cycles := [], identifiers := [],
    syncMeta := ⟨none, none, none, 0, 0, 0⟩, nextCategoryId := 1, nextProductId := 1 }

/-- SQL `COALESCE` of two nullable values. -/
def coalesce (x y : Option α) : Option α :=
  match x with
  | some v => some v
  | none => y

/-- Replace the first row satisfying `p` (rows matched by a `UNIQUE` key, so at most
one row ever satisfies `p`); models `ON CONFLICT ... DO UPDATE`. -/
def replaceBy (p : α → Bool) (r : α) : List α → List α
  | [] => []
  | x :: xs => if p x then r :: xs else x :: replaceBy p r xs

/-- `UpsertCategory` (db_management.go:1138-1158).  The trailing
`SELECT id FROM categories WHERE name = ?` yields the conflicted (or fresh) row's
id, since `name` is the `UNIQUE` conflict key.  Note the bound `label` parameter is
the Go string `label`, i.e. SQL `''` — never `NULL` — so the
`COALESCE(excluded.label, categories.label)` always takes the incoming value. -/
def UpsertCategory (st : Store) (name label : String) (total : Int) : Store × Nat :=
  match st.categories.find? (fun c => c.name == name) with
  | some old =>
    let merged : CategoryRow :=
      { old with label := coalesce (some label) old.label, totalProducts := total }
    ({ st with categories := replaceBy (fun c => c.name == name) merged st.categories },
      old.rid)
  | none =>
    let row : CategoryRow := ⟨st.nextCategoryId, name, some label, total⟩
    ({ st with
        categories := st.categories ++ [row],
        nextCategoryId := st.nextCategoryId + 1 }, st.nextCategoryId)

/-- The `SELECT id FROM categories WHERE name = ?` of `UpsertProduct`
(db_management.go:1171-1175): a `sql.NullInt64`, `NULL` when the category is
absent. -/
def categoryIdOf (st : Store) (category : String) : Option Nat :=
  (st.categories.find? (fun c => c.name == category)).map (fun c => c.rid)

/-- The `ON CONFLICT(name) DO UPDATE` row of `UpsertProduct`
(db_management.go:1181-1189): each scalar column is
`COALESCE(excluded.value, old.value)` — where every excluded value except the
category id is a bound Go string, hence `some _`, never `NULL` — and
`aliases`/`tags` are replaced outright. -/
def mergedProductRow (st : Store) (p : ProductData) (old : ProductRow) : ProductRow :=
  { old with
    categoryId := coalesce (categoryIdOf st p.category) old.categoryId,
    categoryName := coalesce (some p.category) old.categoryName,
    label := coalesce (some p.label) old.label,
    link := coalesce (some (lookupLink p.links)) old.link,
    versionCommand := coalesce (some p.versionCommand) old.versionCommand,
    aliases := some (jsonEncodeStrings p.aliases),
    tags := some (jsonEncodeStrings p.tags) }

/-- The freshly inserted row of `UpsertProduct` (db_management.go:1177-1180). -/
def newProductRow (st : Store) (p : ProductData) : ProductRow :=
  { rid := st.nextProductId, name := p.name, categoryId := categoryIdOf st p.category,
    categoryName := some p.category, label := some p.label,
    link := some (lookupLink p.links), versionCommand := some p.versionCommand,
    aliases := some (jsonEncodeStrings p.aliases),
    tags := some (jsonEncodeStrings p.tags) }

/-- `UpsertProduct` (db_management.go:1161-1199): insert or, on a `name` conflict,
merge via `mergedProductRow`.  The trailing `SELECT id ... WHERE name = ?` yields
the conflicted (or fresh) row's id, since `name` is the conflict key. -/
def UpsertProduct (st : Store) (p : ProductData) : Store × Nat :=
  match st.products.find? (fun r => r.name == p.name) with
  | some old =>
    ({ st with
        products := replaceBy (fun r => r.name == p.name) (mergedProductRow st p old)
          st.products },
      old.rid)
  | none =>
    ({ st with
        products := st.products ++ [newProductRow st p],
        nextProductId := st.nextProductId + 1 }, st.nextProductId)

/-- The EOL column pair computed by `UpsertCycle` (db_management.go:1216-1229):
a date when `EolFrom` is non-empty, else the boolean when `IsEol` is set. -/
def eolColumns (r : ReleaseData) : Option String × Option Int :=
  if r.eolFrom ≠ "" then (some r.eolFrom, none)
  else
    match r.isEol with
    | some b => (none, some (if b then 1 else 0))
    | none => (none, none)

/-- The support column pair (db_management.go:1231-1244), mirroring the EOL pair
over `EoasFrom`/`IsEoas`. -/
def supportColumns (r : ReleaseData) : Option String × Option Int :=
  if r.eoasFrom ≠ "" then (some r.eoasFrom, none)
  else
    match r.isEoas with
    | some b => (none, some (if b then 1 else 0))
    | none => (none, none)

/-- The latest-version column triple (db_management.go:1252-1271). -/
def latestColumns : LatestValue → Option String × Option String × Option String
  | .str s => (some s, none, none)
  | .obj n d l => (n, d, l)
  | .null => (none, none, none)

/-- The row `UpsertCycle` writes for product `productID` and release `r`. -/
def cycleRowOf (productID : Nat) (r : ReleaseData) : CycleRow :=
  let ec := eolColumns r
  let sc := supportColumns r
  let lc := latestColumns r.latest
  { productId := productID, cycle := r.name, cycleLabel := some r.label,
    codename := some r.codename, releaseDate := some r.releaseDate,
    eol := ec.1, eolBoolean := ec.2, latestVersion := lc.1,
    latestReleaseDate := lc.2.1, lts := if r.isLts then 1 else 0,
    ltsFrom := some r.ltsFrom, support := sc.1,
    supportBoolean := sc.2,
    isMaintained := if r.isMaintained then 1 else 0, link := lc.2.2,
    dataHash := some (encodeRelease r) }

/-- `UpsertCycle` (db_management.go:1202-1307): if a row for `(productID, r.name)`
exists with the same content hash, return `changed = false` without writing;
otherwise insert or overwrite all fields and return `changed = true`. -/
def UpsertCycle (st : Store) (productID : Nat) (r : ReleaseData) : Store × Bool :=
  let sameKey : CycleRow → Bool := fun c => c.productId == productID && c.cycle == r.name
  match st.cycles.find? sameKey with
  | some row =>
    if row.dataHash == some (encodeRelease r) then (st, false)
    else ({ st with cycles := replaceBy sameKey (cycleRowOf productID r) st.cycles }, true)
  | none => ({ st with cycles := st.cycles ++ [cycleRowOf productID r] }, true)

/-- `UpsertIdentifiers` (db_management.go:1310-1329): skip entries with an empty
type or value; on conflict only the (unmodelled) `updated_at` column changes;
count every non-skipped entry. -/
def UpsertIdentifiers (st : Store) (productID : Nat) (idents : List Identifier) :
    Store × Nat :=
  idents.foldl
    (fun (acc : Store × Nat) ident =>
      if ident.idType == "" || ident.idValue == "" then acc
      else
        let row : IdentifierRow := ⟨productID, ident.idType, ident.idValue⟩
        let s :=
          if acc.1.identifiers.any (fun i =>
              i.productId == productID && i.idType == ident.idType &&
                i.idValue == ident.idValue) then
            acc.1
          else { acc.1 with identifiers := acc.1.identifiers ++ [row] }
        (s, acc.2 + 1))
    (st, 0)

/-! ## Read operations and lookups -/

/-- Insert into a list sorted by the "may come before" relation `f`. -/
def insertSorted (f : α → α → Bool) (x : α) : List α → List α
  | [] => [x]
  | y :: ys => if f x y then x :: y :: ys else y :: insertSorted f x ys

/-- Insertion sort by the "may come before" relation `f`. -/
def sortByF (f : α → α → Bool) : List α → List α
  | [] => []
  | x :: xs => insertSorted f x (sortByF f xs)

/-- `ORDER BY release_date DESC` on a nullable column: larger dates first, `NULL`s
last (SQLite sorts `NULL` smallest). -/
def releaseDateDescBefore (a b : Option String) : Bool :=
  match a, b with
  | some x, some y => !decide (x < y)
  | some _, none => true
  | none, some _ => false
  | none, none => true

/-- `GetProductCycles` (db_management.go:1488-1514): the cycles of the named
product, ordered by release date descending. -/
def GetProductCycles (st : Store) (productName : String) : List CycleRow :=
  match st.products.find? (fun p => p.name == productName) with
  | none => []
  | some p =>
    sortByF (fun a b => releaseDateDescBefore a.releaseDate b.releaseDate)
      (st.cycles.filter (fun c => c.productId == p.rid))

/-- `GetProductIdentifiers` (db_management.go:1586-1608): the identifiers of the
named product, ordered by type. -/
def GetProductIdentifiers (st : Store) (productName : String) :
    List (String × String) :=
  match st.products.find? (fun p => p.name == productName) with
  | none => []
  | some p =>
    sortByF (fun a b => decide (a.1 ≤ b.1))
      ((st.identifiers.filter (fun i => i.productId == p.rid)).map
        (fun i => (i.idType, i.idValue)))

/-- The first row of `products JOIN identifiers` whose identifier satisfies `f`
(`QueryRow` takes the first result; the model takes insertion order). -/
def joinFirstProduct (st : Store) (f : IdentifierRow → Bool) : Option ProductRow :=
  match st.identifiers.find? f with
  | some i => st.products.find? (fun p => p.rid == i.productId)
  | none => none

/-- SQLite `value LIKE pat || '%'` for a wildcard-free `pat`: case-insensitive
(ASCII) prefix test. -/
def likeStarts (pat value : String) : Bool :=
  (lowerL pat.data).isPrefixOf (lowerL value.data)

/-- The PURL with everything from the last `'@'` on stripped
(db_management.go:1622-1629); the PURL itself when it has no `'@'`. -/
def purlBaseOf (purl : String) : String :=
  let parts := splitOnChar '@' purl.data
  if parts.length ≤ 1 then purl
  else String.mk (List.intercalate ['@'] (parts.dropLast))

/-- `LookupByPURL` (db_management.go:1611-1658): exact match on `type='purl'`
identifiers, then prefix match on the PURL with its version suffix stripped;
returns the product with its cycles and identifiers, or `none` for no rows. -/
def LookupByPURL (st : Store) (purl : String) :
    Option (ProductRow × List CycleRow × List (String × String)) :=
  let exact := joinFirstProduct st (fun i => i.idType == "purl" && i.idValue == purl)
  let product :=
    match exact with
    | some p => some p
    | none =>
      joinFirstProduct st
        (fun i => i.idType == "purl" && likeStarts (purlBaseOf purl) i.idValue)
  match product with
  | some p => some (p, GetProductCycles st p.name, GetProductIdentifiers st p.name)
  | none => none

/-- The suffix-stripping loop of `normalizePackageName` (db_management.go:1807-1812):
strip the first listed suffix that matches (strictly shorter than the name), then
stop. -/
def stripFirstSuffix : List (List Char) → List Char → List Char
  | [], r => r
  | suf :: rest, r =>
    if decide (suf.length < r.length) && suf.isSuffixOf r then dropLastL r suf.length
    else stripFirstSuffix rest r

/-- `normalizePackageName` (db_management.go:1802-1815). -/
def normalizePackageName (name : String) : String :=
  String.mk
    (stripFirstSuffix
      (["-dev", "-devel", "-libs", "-common", "-bin", "-tools", "-utils"].map
        String.data)
      name.data)

/-- `LookupByName` (db_management.go:1753-1799): normalize the name, then try a
case-insensitive exact product-name match, a substring match of the quoted name
against the JSON-encoded alias column, and a case-insensitive exact match against
`type='repology'` identifiers.  The `pkgType` argument is accepted but unused, as
in the source. -/
def LookupByName (st : Store) (name _pkgType : String) :
    Option (ProductRow × List CycleRow) :=
  let normalizedName := normalizePackageName name
  let exact :=
    st.products.find? (fun p => lowerL p.name.data == lowerL normalizedName.data)
  let product :=
    match exact with
    | some p => some p
    | none =>
      match st.products.find? (fun p =>
          match p.aliases with
          | some a =>
            containsL (lowerL ('"' :: (normalizedName.data ++ ['"']))) (lowerL a.data)
          | none => false) with
      | some p => some p
      | none =>
        joinFirstProduct st (fun i =>
          i.idType == "repology" && lowerL i.idValue.data == lowerL normalizedName.data)
  match product with
  | some p => some (p, GetProductCycles st p.name)
  | none => none

/-! ## The sync engine -/

/-- `DefaultCategories` (db_management.go:867-873). -/
def DefaultCategories : List String := ["framework", "lang", "os", "database", "server-app"]

/-- `SyncResult` (db_management.go:1332-1338); `Duration` is wall-clock time and is
not modelled. -/
structure SyncResult where
  productsProcessed : Nat
  cyclesProcessed : Nat
  identifiersProcessed : Nat
  errors : Nat
deriving DecidableEq, Repr

/-- `GetAllProductsFull` (db_management.go:942-974): the upstream fetch, which fails
with a cancellation error whenever the supplied context is cancelled before or
during the HTTP round trip; otherwise it yields the upstream product list. -/
def GetAllProductsFull (ctxCancelled : Bool) (upstream : List ProductData) :
    Except String (List ProductData) :=
  if ctxCancelled then .error "context canceled" else .ok upstream

/-- The per-product body of `FullSync`'s main loop (db_management.go:1382-1412):
upsert the product, its identifiers, then each of its cycles. -/
def syncOneProduct (acc : Store × SyncResult) (product : ProductData) :
    Store × SyncResult :=
  if product.name == "" then acc
  else
    let up := UpsertProduct acc.1 product
    let productID := up.2
    let r1 := { acc.2 with productsProcessed := acc.2.productsProcessed + 1 }
    let ui := UpsertIdentifiers up.1 productID product.identifiers
    let r2 := { r1 with identifiersProcessed := r1.identifiersProcessed + ui.2 }
    product.releases.foldl
      (fun (acc2 : Store × SyncResult) release =>
        let uc := UpsertCycle acc2.1 productID release
        (uc.1,
          if uc.2 then
            { acc2.2 with cyclesProcessed := acc2.2.cyclesProcessed + 1 }
          else acc2.2))
      (ui.1, r2)

/-- `FullSync` (db_management.go:1341-1429): default a `nil` category list (and only
a `nil` one) to `DefaultCategories`; fetch (aborting with no writes on failure);
filter by category; upsert per-category counts with empty labels; upsert each named
product with its identifiers and cycles; finally overwrite the sync-metadata record
with the current timestamp, the synced category list and the current row counts.
The model iterates the category-count map in first-occurrence order (Go's map
iteration order is unspecified); storage errors are not modelled, so the `Errors`
counter stays zero. -/
def FullSync (st : Store) (ctxCancelled : Bool) (upstream : List ProductData)
    (categories : Option (List String)) (now : Timestamp) :
    Store × Except String SyncResult :=
  let cats := categories.getD DefaultCategories
  match GetAllProductsFull ctxCancelled upstream with
  | .error e => (st, .error ("failed to fetch products: " ++ e))
  | .ok allProducts =>
    let filtered := allProducts.filter (fun p => cats.contains p.category)
    let catNames := (filtered.map (fun p => p.category)).eraseDups
    let st1 := catNames.foldl
      (fun s c =>
        (UpsertCategory s c ""
          ((filtered.filter (fun p => p.category == c)).length : Int)).1)
      st
    let stres := filtered.foldl syncOneProduct (st1, ⟨0, 0, 0, 0⟩)
    let meta : SyncMetadataRow :=
      { lastFullSync := some (formatTS now),
        lastUpdateCheck := some (formatTS now),
        categoriesSynced := some (jsonEncodeStrings cats),
        productsCount := (stres.1.products.length : Int),
        cyclesCount := (stres.1.cycles.length : Int),
        identifiersCount := (stres.1.identifiers.length : Int) }
    ({ stres.1 with syncMeta := meta }, .ok stres.2)

/-- `checkDBNeedsUpdate` (scanning.go:177-188): parse the stored last-sync
timestamp (an absent `sql.NullString` reads as `""`); unparsable means stale;
otherwise stale exactly when `time.Since(lastSync) > maxAge`. -/
def checkDBNeedsUpdate (lastFullSync : Option String) (maxAge now : Int) : Bool :=
  match parseRFC3339 (lastFullSync.getD "") with
  | none => true
  | some ts => decide (now - tsToSeconds ts > maxAge)

/-! ## The scanner (`scanning.go`) -/

/-- `EOLStatus` (scanning.go:17-26). -/
inductive EOLStatus where
  | active
  | eol
  | eolSoon
  | unknown
deriving DecidableEq, Repr

/-- `ComponentResult` (scanning.go:29-41).  `DaysUntilEOL` is only ever set to a
non-negative day count, so it is `Option Nat`. -/
structure ComponentResult where
  name : String
  version : String
  purl : String
  ptype : String
  status : EOLStatus
  eolDate : String
  daysUntilEOL : Option Nat
  matchedProduct : String
  matchedCycle : String
  latestVersion : String
  isLTS : Bool
deriving DecidableEq, Repr

/-- The component descriptor `checkComponent` reads off a `pkg.Package`. -/
structure Package where
  name : String
  version : String
  ptype : String
  purl : String
deriving DecidableEq, Repr

/-- The cycle-selection loops of `evaluateEOLStatus` (scanning.go:330-349): the
first cycle the version prefix-matches, else the first cycle it major-matches. -/
def selectCycle (cycles : List CycleRow) (version : String) : Option CycleRow :=
  match cycles.find? (fun c => matchesVersion version c.cycle) with
  | some c => some c
  | none => cycles.find? (fun c => matchesMajorVersion version c.cycle)

/-- The maintained fallback at scanning.go:389-394. -/
def maintainedResult (mc : CycleRow) (r : ComponentResult) : ComponentResult :=
  if mc.isMaintained == 1 then { r with status := .active } else r

/-- `evaluateEOLStatus` (scanning.go:322-395).  `forwardLookupDays` and `today`
stand for `s.config.ForwardLookupDays` and `time.Now()`; `forwardDate` is
`today.AddDate(0, 0, forwardLookupDays)`.  `int(eolDate.Sub(today).Hours() / 24)`
truncates a duration that is positive in every branch that stores it, so it is
`(d - today).toNat / 86400`. -/
def evaluateEOLStatus (forwardLookupDays today : Int) (result : ComponentResult)
    (cycles : List CycleRow) (version : String) : ComponentResult :=
  if cycles.isEmpty then result
  else
    let forwardDate := today + forwardLookupDays * 86400
    match selectCycle cycles version with
    | none => result
    | some mc =>
      let r1 := { result with matchedCycle := mc.cycle, isLTS := mc.lts == 1 }
      let r2 :=
        match mc.latestVersion with
        | some lv => { r1 with latestVersion := lv }
        | none => r1
      if mc.eolBoolean == some 1 then { r2 with status := .eol }
      else
        match mc.eol with
        | some s =>
          if s ≠ "" then
            match parseSimpleDate s with
            | some d =>
              let r3 := { r2 with eolDate := s }
              if d ≤ today then { r3 with status := .eol }
              else if d < forwardDate then
                { r3 with
                    status := .eolSoon,
                    daysUntilEOL := some ((d - today).toNat / 86400) }
              else
                { r3 with
                    status := .active,
                    daysUntilEOL := some ((d - today).toNat / 86400) }
            | none => maintainedResult mc r2
          else maintainedResult mc r2
        | none => maintainedResult mc r2

/-- The zero-valued `ComponentResult` `checkComponent` starts from
(scanning.go:297-307): name/version/type/PURL copied from the package, status
`Unknown`, everything else empty. -/
def initResult (p : Package) : ComponentResult :=
  { name := p.name, version := p.version, purl := p.purl, ptype := p.ptype,
    status := .unknown, eolDate := "", daysUntilEOL := none, matchedProduct := "",
    matchedCycle := "", latestVersion := "", isLTS := false }

/-- `checkComponent` (scanning.go:296-319): start from the `Unknown` result; when
the package has a PURL, try `LookupByPURL`; on a hit record the matched product and
evaluate the EOL status; in every other case return the `Unknown` result as-is. -/
def checkComponent (st : Store) (forwardLookupDays today : Int) (p : Package) :
    ComponentResult :=
  let result := initResult p
  if p.purl == "" then result
  else
    match LookupByPURL st p.purl with
    | some (product, cycles, _idents) =>
      evaluateEOLStatus forwardLookupDays today
        { result with matchedProduct := product.name } cycles p.version
    | none => result

/-! ## Concrete fixtures used by counterexamples and witnesses -/

/-- A `python 2.7` cycle row that is EOL by boolean flag. -/
def pyCycle : CycleRow :=
  { productId := 1, cycle := "2.7", cycleLabel := some "", codename := some "",
    releaseDate := some "2010-07-03", eol := none, eolBoolean := some 1,
    latestVersion := some "2.7.18", latestReleaseDate := none, lts := 0,
    ltsFrom := some "", support := none, supportBoolean := none, isMaintained := 0,
    link := none, dataHash := some "h" }

/-- A catalog holding one product `python` (category `lang`, aliases
`python3`/`cpython`, a `repology` identifier, and the EOL `2.7` cycle) with **no**
`purl` identifiers. -/
def pythonStore : Store :=
  { categories := [⟨1, "lang", some "", 1⟩],
    products := [{
      rid := 1, name := "python", categoryId := some 1,
      categoryName := some "lang", label := some "Python", link := some "",
      versionCommand := some "", aliases := some "[\"python3\",\"cpython\"]",
      tags := some "[]" }],
    cycles := [pyCycle],
    identifiers := [⟨1, "repology", "python"⟩],
    syncMeta := ⟨none, none, none, 0, 0, 0⟩, nextCategoryId := 2, nextProductId := 2 }

/-- The spec's end-to-end component: `python 2.7.18` with a `pypi` PURL. -/
def pyPkg : Package :=
  { name := "python", version := "2.7.18", ptype := "python",
    purl := "pkg:pypi/python@2.7.18" }

/-- A cycle whose EOL date is stored in `YYYY-MM-DDTHH:MM:SSZ` form and which is
not maintained. -/
def rfcCycle : CycleRow :=
  { productId := 1, cycle := "3.9", cycleLabel := some "", codename := some "",
    releaseDate := some "2020-10-05", eol := some "2020-01-01T00:00:00Z",
    eolBoolean := none, latestVersion := none, latestReleaseDate := none, lts := 0,
    ltsFrom := some "", support := none, supportBoolean := none, isMaintained := 0,
    link := none, dataHash := some "h" }

/-- A bare cycle row named `3.9` (only the name matters to cycle selection). -/
def row39 : CycleRow :=
  { productId := 1, cycle := "3.9", cycleLabel := none, codename := none,
    releaseDate := none, eol := none, eolBoolean := none, latestVersion := none,
    latestReleaseDate := none, lts := 0, ltsFrom := none, support := none,
    supportBoolean := none, isMaintained := 0, link := none, dataHash := none }

/-- An upstream release payload used to exercise `UpsertCycle`. -/
def rel312 : ReleaseData :=
  { name := "3.12", label := "Python 3.12", codename := "", releaseDate := "2023-10-02",
    isEol := some false, eolFrom := "2028-10-31", isEoas := none, eoasFrom := "",
    isLts := false, ltsFrom := "", latest := .str "3.12.1", isMaintained := true }

/-- An upstream product payload named `python` with label `Python`. -/
def pyData : ProductData :=
  { name := "python", category := "lang", label := "Python",
    links := [("html", "https://python.org")], versionCommand := "python --version",
    aliases := ["python3", "cpython"], tags := ["language"], identifiers := [],
    releases := [] }

/-- The same product payload with every scalar field empty (a later sync sending
empty values). -/
def pyDataEmptyLabel : ProductData :=
  { name := "python", category := "", label := "", links := [],
    versionCommand := "", aliases := [], tags := [], identifiers := [],
    releases := [] }

/-! ## Helper lemmas -/

theorem splitOnChar_ne_nil (sep : Char) (l : List Char) : splitOnChar sep l ≠ [] := by
  cases l with
  | nil => simp [splitOnChar]
  | cons c rest =>
    simp only [splitOnChar]
    split
    · simp
    · split <;> simp

theorem find?_replaceBy (p : α → Bool) (r : α) (l : List α) (x : α)
    (h : l.find? p = some x) (hr : p r = true) :
    (replaceBy p r l).find? p = some r := by
  induction l with
  | nil => simp at h
  | cons a as ih =>
    by_cases ha : p a = true
    · simp [replaceBy, ha, List.find?, hr]
    · have ha' : p a = false := by simpa using ha
      simp [replaceBy, ha', List.find?] at h ⊢
      exact ih h

theorem find?_append_of_none (p : α → Bool) (l₁ l₂ : List α)
    (h : l₁.find? p = none) : (l₁ ++ l₂).find? p = l₂.find? p := by
  induction l₁ with
  | nil => simp
  | cons a as ih =>
    cases hpa : p a with
    | true =>
      rw [List.find?_cons_of_pos _ hpa] at h
      exact absurd h (by simp)
    | false =>
      have hpa' : ¬p a = true := by simp [hpa]
      rw [List.find?_cons_of_neg _ hpa'] at h
      rw [List.cons_append, List.find?_cons_of_neg _ hpa']
      exact ih h

theorem digitVal_digitChar (n : Nat) : digitVal (digitChar n) = n % 10 := by
  have h : n % 10 < 10 := Nat.mod_lt _ (by norm_num)
  unfold digitChar digitVal
  generalize hm : n % 10 = m at h ⊢
  interval_cases m <;> decide

theorem isDigitC_digitChar (n : Nat) : isDigitC (digitChar n) = true := by
  have h : n % 10 < 10 := Nat.mod_lt _ (by norm_num)
  unfold digitChar isDigitC
  generalize hm : n % 10 = m at h ⊢
  interval_cases m <;> decide

/-- The `YYYY-MM-DDTHH:MM:SSZ` rendering of a valid timestamp parses back to it. -/
theorem parseRFC3339_formatTS (t : Timestamp) (h : validTS t) :
    parseRFC3339 (formatTS t) = some t := by
  obtain ⟨y, mo, d, hh, mi, s⟩ := t
  obtain ⟨hy, hm1, hm2, hd1, hd2, hhh, hmi, hs⟩ := h
  simp only at hy hm1 hm2 hd1 hd2 hhh hmi hs
  simp only [formatTS, pad4, pad2, List.cons_append, List.nil_append, parseRFC3339,
    isDigitC_digitChar, Bool.and_self, Bool.and_true, Bool.true_and, if_true,
    digitVal_digitChar]
  have ey : 1000 * (y / 1000 % 10) + 100 * (y / 100 % 10) + 10 * (y / 10 % 10) +
      y % 10 = y := by omega
  have emo : 10 * (mo / 10 % 10) + mo % 10 = mo := by omega
  have ed : 10 * (d / 10 % 10) + d % 10 = d := by omega
  have eh : 10 * (hh / 10 % 10) + hh % 10 = hh := by omega
  have emi : 10 * (mi / 10 % 10) + mi % 10 = mi := by omega
  have es : 10 * (s / 10 % 10) + s % 10 = s := by omega
  rw [ey, emo, ed, eh, emi, es, if_pos]
  simp only [Bool.and_eq_true, decide_eq_true_eq]
  omega

/-- After any `UpsertProduct`, a row for the product's name is present and carries
the returned id. -/
theorem upsertProduct_find (st : Store) (p : ProductData) :
    ∃ row, ((UpsertProduct st p).1).products.find? (fun r => r.name == p.name)
        = some row ∧ row.rid = (UpsertProduct st p).2 := by
  unfold UpsertProduct
  cases hf : st.products.find? (fun r => r.name == p.name) with
  | some old =>
    have hold := List.find?_some hf
    simp only [hf]
    refine ⟨mergedProductRow st p old, ?_, rfl⟩
    apply find?_replaceBy _ _ _ _ hf
    simpa [mergedProductRow] using hold
  | none =>
    simp only [hf]
    refine ⟨newProductRow st p, ?_, rfl⟩
    rw [find?_append_of_none _ _ _ hf]
    simp [List.find?, newProductRow]

/-- After any `UpsertCycle`, the row for `(productID, r.name)` is present and its
hash column equals the payload's content hash. -/
theorem upsertCycle_find (st : Store) (productID : Nat) (r : ReleaseData) :
    ∃ row, ((UpsertCycle st productID r).1).cycles.find?
        (fun c => c.productId == productID && c.cycle == r.name) = some row ∧
      row.dataHash = some (encodeRelease r) := by
  unfold UpsertCycle
  cases hf : st.cycles.find? (fun c => c.productId == productID && c.cycle == r.name) with
  | some old =>
    by_cases hh : old.dataHash == some (encodeRelease r)
    · simp only [hf, hh, if_pos]
      exact ⟨old, rfl, by simpa using hh⟩
    · have hh' : (old.dataHash == some (encodeRelease r)) = false := by
        simpa using hh
      simp only [hf, hh', Bool.false_eq_true, if_false]
      refine ⟨cycleRowOf productID r, ?_, by simp [cycleRowOf]⟩
      apply find?_replaceBy _ _ _ _ hf
      simp [cycleRowOf]
  | none =>
    simp only [hf]
    refine ⟨cycleRowOf productID r, ?_, by simp [cycleRowOf]⟩
    rw [find?_append_of_none _ _ _ hf]
    simp [List.find?, cycleRowOf]

/-- A successful `FullSync` stamps the sync-metadata record with the formatted
current time. -/
theorem fullSync_meta (st : Store) (up : List ProductData)
    (cats : Option (List String)) (now : Timestamp) :
    ((FullSync st false up cats now).1).syncMeta.lastFullSync
      = some (formatTS now) := by
  simp [FullSync, GetAllProductsFull]

/-! ## Claim C9 -/

/-- **C9.** If the externally supplied cancellation context is already cancelled
before (or becomes cancelled during) the upstream fetch, `FullSync` returns a
cancellation error and makes no catalog writes: the store — categories, products,
cycles, identifiers and sync-metadata — is returned unchanged. -/
theorem c9_fullSync_cancelled (st : Store) (upstream : List ProductData)
    (cats : Option (List String)) (now : Timestamp) :
    FullSync st true upstream cats now
      = (st, .error "failed to fetch products: context canceled") := by
  rfl

/-! ## Claim C10 -/

/-- **C10.** `FullSync` treats only a `nil` (`none`) category list as unspecified:
with `none` it behaves exactly as with the built-in `DefaultCategories`, while with
an empty non-`nil` list (`some []`) no defaulting occurs — every upstream product
is filtered out, the result counts are all zero, the category/product/cycle/
identifier tables are untouched, and the sync-metadata record is still overwritten
with the fresh timestamp and the empty category list `"[]"`. -/
theorem c10_fullSync_nil_vs_empty :
    (∀ (st : Store) (upstream : List ProductData) (now : Timestamp),
      FullSync st false upstream (some []) now
        = ({ st with
              syncMeta :=
                { lastFullSync := some (formatTS now),
                  lastUpdateCheck := some (formatTS now),
                  categoriesSynced := some "[]",
                  productsCount := (st.products.length : Int),
                  cyclesCount := (st.cycles.length : Int),
                  identifiersCount := (st.identifiers.length : Int) } },
            .ok ⟨0, 0, 0, 0⟩))
    ∧ (∀ (st : Store) (upstream : List ProductData) (now : Timestamp),
      FullSync st false upstream none now
        = FullSync st false upstream (some DefaultCategories) now) := by
  constructor
  · intro st upstream now
    have hfil : upstream.filter (fun p => ([] : List String).contains p.category) = [] := by
      rw [List.filter_eq_nil_iff]
      intro a _
      simp
    simp only [FullSync, GetAllProductsFull, if_neg (by simp : ¬(false = true)),
      Option.getD_some, hfil, List.map_nil, List.eraseDups, List.foldl_nil]
    rfl
  · intro st upstream now
    rfl

/-! ## Claim C7 -/

/-- **C7.** A cycle matches exactly when the version equals the cycle name or
starts with `cycleName ++ "."` or `cycleName ++ "-"`; when no cycle matches by
this prefix rule, cycle selection falls back to major-version matching, which
strips one leading `'v'` from each string and compares their leading
dot-separated tokens; in particular `"3.9.1"` matches cycle `"3.9"`, `"3.91"`
does not match `"3.9"`, `"4.0.0"` does not major-match `"3.9"`, and `"v2.1.0"`
major-matches `"2.0"`. -/
theorem c7_version_matching :
    (∀ v c : String,
      matchesVersion v c = true ↔
        (v = c ∨ (∃ t, v.data = c.data ++ '.' :: t) ∨ (∃ t, v.data = c.data ++ '-' :: t)))
    ∧ (∀ s : String, extractMajorVersion s = specLeadingDotToken (specStripLeadingV s))
    ∧ (∀ v c : String,
      matchesMajorVersion v c = true ↔
        (extractMajorVersion v ≠ "" ∧ extractMajorVersion v = extractMajorVersion c))
    ∧ (∀ (cycles : List CycleRow) (version : String),
      (∀ c ∈ cycles, matchesVersion version c.cycle = false) →
        selectCycle cycles version
          = cycles.find? (fun c => matchesMajorVersion version c.cycle))
    ∧ (matchesVersion "3.9.1" "3.9" = true ∧ matchesVersion "3.91" "3.9" = false ∧
        matchesMajorVersion "4.0.0" "3.9" = false ∧
        matchesMajorVersion "v2.1.0" "2.0" = true) := by
  refine ⟨?_, ?_, ?_, ?_, by decide⟩
  · intro v c
    unfold matchesVersion
    simp only [Bool.or_eq_true, beq_iff_eq, List.isPrefixOf_iff_prefix]
    constructor
    · rintro ((h | ⟨t, ht⟩) | ⟨t, ht⟩)
      · exact Or.inl h
      · refine Or.inr (Or.inl ⟨t, ?_⟩)
        rw [← ht]
        simp
      · refine Or.inr (Or.inr ⟨t, ?_⟩)
        rw [← ht]
        simp
    · rintro (h | ⟨t, ht⟩ | ⟨t, ht⟩)
      · exact Or.inl (Or.inl h)
      · refine Or.inl (Or.inr ⟨t, ?_⟩)
        rw [ht]
        simp
      · refine Or.inr ⟨t, ?_⟩
        rw [ht]
        simp
  · intro s
    unfold extractMajorVersion specLeadingDotToken specStripLeadingV extractMajorLoop
    by_cases hv : s.data.take 1 == ['v']
    · simp only [hv, if_pos]
      cases hsplit : splitOnChar '.' (s.data.drop 1) with
      | nil => exact absurd hsplit (splitOnChar_ne_nil _ _)
      | cons p t => simp [hsplit]
    · have hv' : (s.data.take 1 == ['v']) = false := by simpa using hv
      simp only [hv', Bool.false_eq_true, if_false]
      cases hsplit : splitOnChar '.' s.data with
      | nil => exact absurd hsplit (splitOnChar_ne_nil _ _)
      | cons p t => simp [hsplit]
  · intro v c
    unfold matchesMajorVersion
    simp [Bool.and_eq_true, bne_iff_ne, beq_iff_eq]
  · intro cycles version h
    unfold selectCycle
    have hnone : cycles.find? (fun c => matchesVersion version c.cycle) = none := by
      rw [List.find?_eq_none]
      intro x hx
      simp [h x hx]
    rw [hnone]

/-! ## Claim C1 -/

/-- **C1.** The claim says that a component whose PURL lookups yield no product is
resolved through the name fallback (case-insensitive exact name, alias substring,
repology identifier on the suffix-normalized name) before being classified
Unknown — and the spec's end-to-end scenario requires `python 2.7.18` with PURL
`pkg:pypi/python@2.7.18` to resolve to status EOL that way.  Evaluating the code
at exactly that input shows the divergence: `checkComponent` consults only
`LookupByPURL` and returns the untouched Unknown result, even though
`LookupByName` run on the same store finds the product and the evaluator would
classify it EOL (the name fallback exists in the store layer but the scan path
never invokes it). -/
theorem c1_checkComponent_skips_name_fallback :
    checkComponent pythonStore 90 0 pyPkg = initResult pyPkg
    ∧ (initResult pyPkg).status = EOLStatus.unknown
    ∧ (initResult pyPkg).matchedProduct = ""
    ∧ (LookupByName pythonStore "python" "python").isSome = true
    ∧ (evaluateEOLStatus 90 0 { initResult pyPkg with matchedProduct := "python" }
        (GetProductCycles pythonStore "python") "2.7.18").status = EOLStatus.eol := by
  decide

/-! ## Claim C2 -/

/-- **C2 counterexample.** The claim says an incoming *empty* scalar leaves the
stored value unchanged.  But the bound parameters are Go strings (SQL `''`, never
`NULL`), so the `COALESCE` always takes them: upserting `python` with label
`"Python"` and then upserting the same name with an empty label stores `''`, not
`"Python"`. -/
theorem c2_counterexample :
    ((UpsertProduct (UpsertProduct emptyStore pyData).1 pyDataEmptyLabel).1).products.map
        (fun r => r.label) = [some ""]
    ∧ ([some ""] : List (Option String)) ≠ [some "Python"] := by
  decide

/-- **C2 (amended).** On a `name` conflict every scalar *string* column (category
name, label, link, version command) is overwritten with the incoming value even
when that value is empty — only the category id, the one genuinely `NULL`-able
bind, is kept when the incoming category does not resolve — while `aliases` and
`tags` are always fully replaced by the incoming (JSON-encoded) lists, and the
returned id equals the id returned by the first upsert of that name. -/
theorem c2_upsertProduct_overwrite :
    (∀ (st : Store) (p : ProductData) (old : ProductRow),
      st.products.find? (fun r => r.name == p.name) = some old →
      ∃ row,
        ((UpsertProduct st p).1).products.find? (fun r => r.name == p.name) = some row
        ∧ row.label = some p.label
        ∧ row.link = some (lookupLink p.links)
        ∧ row.versionCommand = some p.versionCommand
        ∧ row.categoryName = some p.category
        ∧ row.aliases = some (jsonEncodeStrings p.aliases)
        ∧ row.tags = some (jsonEncodeStrings p.tags)
        ∧ row.categoryId = coalesce (categoryIdOf st p.category) old.categoryId
        ∧ row.rid = old.rid
        ∧ (UpsertProduct st p).2 = old.rid)
    ∧ (∀ (st : Store) (p q : ProductData), q.name = p.name →
        (UpsertProduct (UpsertProduct st p).1 q).2 = (UpsertProduct st p).2) := by
  constructor
  · intro st p old hf
    have hold := List.find?_some hf
    refine ⟨mergedProductRow st p old, ?_, rfl, rfl, rfl, rfl, rfl, rfl, rfl, rfl, ?_⟩
    · simp only [UpsertProduct, hf]
      apply find?_replaceBy _ _ _ _ hf
      simpa [mergedProductRow] using hold
    · simp [UpsertProduct, hf]
  · intro st p q hq
    obtain ⟨row, hfind, hrid⟩ := upsertProduct_find st p
    rw [← hq] at hfind
    generalize UpsertProduct st p = res at hfind hrid ⊢
    simp only [UpsertProduct, hfind]
    exact hrid

/-! ## Claim C3 -/

/-- **C3 counterexample.** The claim says a second upsert of a category with an
empty label keeps the stored label.  The bound label is a Go string (`''`, never
`NULL`), so the `COALESCE` takes it: after `("lang", "Languages", 10)` followed by
`("lang", "", 55)` the stored label is `''`, not `"Languages"`. -/
theorem c3_counterexample :
    ((UpsertCategory (UpsertCategory emptyStore "lang" "Languages" 10).1
        "lang" "" 55).1).categories.map (fun c => (c.label, c.totalProducts))
      = [(some "", 55)]
    ∧ ([(some "", (55 : Int))] : List (Option String × Int))
        ≠ [(some "Languages", (55 : Int))] := by
  decide

/-- **C3 (amended).** For a category already in the store, calling `UpsertCategory`
again with the same name overwrites the stored label with the incoming label even
when it is empty (the `COALESCE` guards only SQL `NULL`, and the incoming label —
a bound Go string — never is), always overwrites the stored product count, and
returns the stored row's id; a full sync, which upserts every category with an
empty label, therefore clears stored category labels. -/
theorem c3_upsertCategory_overwrite (st : Store) (name lbl : String) (total : Int)
    (old : CategoryRow) (hf : st.categories.find? (fun c => c.name == name) = some old) :
    UpsertCategory st name lbl total
      = ({ st with
            categories := replaceBy (fun c => c.name == name)
              { old with label := some lbl, totalProducts := total } st.categories },
        old.rid) := by
  simp only [UpsertCategory, hf]
  rfl

/-! ## Claim C4 -/

/-- **C4.** Upserting an identical cycle payload twice returns `changed = true` on
the first call (provided the row was not already stored with that exact content
hash) and `changed = false` on the second, and the second call performs no write:
the store — hence every field of that cycle row — is unchanged by it. -/
theorem c4_upsertCycle_idempotent (st : Store) (pid : Nat) (rel : ReleaseData)
    (hfresh : ∀ row,
      st.cycles.find? (fun c => c.productId == pid && c.cycle == rel.name) = some row →
      row.dataHash ≠ some (encodeRelease rel)) :
    (UpsertCycle st pid rel).2 = true
    ∧ UpsertCycle (UpsertCycle st pid rel).1 pid rel
        = ((UpsertCycle st pid rel).1, false) := by
  constructor
  · unfold UpsertCycle
    cases hf : st.cycles.find? (fun c => c.productId == pid && c.cycle == rel.name) with
    | some row =>
      have hne : (row.dataHash == some (encodeRelease rel)) = false := by
        simpa using hfresh row hf
      simp [hf, hne]
    | none => simp [hf]
  · obtain ⟨row, hfind, hhash⟩ := upsertCycle_find st pid rel
    generalize UpsertCycle st pid rel = res at hfind hhash ⊢
    have hb : (row.dataHash == some (encodeRelease rel)) = true := by
      simp [hhash]
    simp only [UpsertCycle, hfind, hb, if_pos]

/-- Witness for C4 at a concrete fresh store and payload. -/
theorem c4_witness :
    (UpsertCycle emptyStore 1 rel312).2 = true
    ∧ UpsertCycle (UpsertCycle emptyStore 1 rel312).1 1 rel312
        = ((UpsertCycle emptyStore 1 rel312).1, false) :=
  c4_upsertCycle_idempotent emptyStore 1 rel312
    (by intro row h; simp [emptyStore, List.find?] at h)

/-- Witness for C2 at a concrete store: a first upsert of `python` followed by one
with every scalar empty. -/
theorem c2_witness :
    (∃ row,
      ((UpsertProduct (UpsertProduct emptyStore pyData).1 pyDataEmptyLabel).1).products.find?
          (fun r => r.name == pyDataEmptyLabel.name) = some row
      ∧ row.label = some pyDataEmptyLabel.label
      ∧ row.link = some (lookupLink pyDataEmptyLabel.links)
      ∧ row.versionCommand = some pyDataEmptyLabel.versionCommand
      ∧ row.categoryName = some pyDataEmptyLabel.category
      ∧ row.aliases = some (jsonEncodeStrings pyDataEmptyLabel.aliases)
      ∧ row.tags = some (jsonEncodeStrings pyDataEmptyLabel.tags)
      ∧ row.categoryId
          = coalesce
              (categoryIdOf (UpsertProduct emptyStore pyData).1 pyDataEmptyLabel.category)
              (newProductRow emptyStore pyData).categoryId
      ∧ row.rid = (newProductRow emptyStore pyData).rid
      ∧ (UpsertProduct (UpsertProduct emptyStore pyData).1 pyDataEmptyLabel).2
          = (newProductRow emptyStore pyData).rid)
    ∧ (UpsertProduct (UpsertProduct emptyStore pyData).1 pyDataEmptyLabel).2
        = (UpsertProduct emptyStore pyData).2 :=
  ⟨c2_upsertProduct_overwrite.1 (UpsertProduct emptyStore pyData).1 pyDataEmptyLabel
      (newProductRow emptyStore pyData) (by decide),
    c2_upsertProduct_overwrite.2 emptyStore pyData pyDataEmptyLabel rfl⟩

/-- Witness for C3 at a concrete store: `("lang", "Languages", 10)` then
`("lang", "", 55)`. -/
theorem c3_witness :
    UpsertCategory (UpsertCategory emptyStore "lang" "Languages" 10).1 "lang" "" 55
      = ({ (UpsertCategory emptyStore "lang" "Languages" 10).1 with
            categories := replaceBy (fun c => c.name == "lang")
              { rid := 1, name := "lang", label := some "", totalProducts := 55 }
              ((UpsertCategory emptyStore "lang" "Languages" 10).1).categories },
        1) :=
  c3_upsertCategory_overwrite _ "lang" "" 55 ⟨1, "lang", some "Languages", 10⟩ (by decide)

/-! ## Claim C5 -/

/-- **C5.** For a matched cycle, classification follows this exact order: an EOL
boolean of `1` is EOL regardless of any dates; otherwise, with parsed EOL date `d`
and current instant `today`, the status is EOL when `d ≤ today`, EOL-soon with
`daysUntilEOL = floor((d - today) in days)` when `today < d < today +
forwardLookupDays`, and Active with `daysUntilEOL` computed the same way when
`d ≥ today + forwardLookupDays`; with no EOL information the status is Active when
the cycle is maintained and Unknown (the initial status) otherwise. -/
theorem c5_evaluateEOLStatus_classification (fd today : Int) (r0 : ComponentResult)
    (cycles : List CycleRow) (version : String) (mc : CycleRow)
    (hsel : selectCycle cycles version = some mc) :
    (mc.eolBoolean = some 1 →
      (evaluateEOLStatus fd today r0 cycles version).status = EOLStatus.eol)
    ∧ (mc.eolBoolean ≠ some 1 → ∀ s d, mc.eol = some s → parseSimpleDate s = some d →
        (evaluateEOLStatus fd today r0 cycles version).status
          = (if d ≤ today then EOLStatus.eol
             else if d < today + fd * 86400 then EOLStatus.eolSoon
             else EOLStatus.active)
        ∧ (today < d →
            (evaluateEOLStatus fd today r0 cycles version).daysUntilEOL
              = some ((d - today).toNat / 86400)))
    ∧ ((mc.eol = none ∨ mc.eol = some "") → mc.eolBoolean ≠ some 1 →
        r0.status = EOLStatus.unknown →
        (evaluateEOLStatus fd today r0 cycles version).status
          = (if mc.isMaintained == 1 then EOLStatus.active else EOLStatus.unknown)) := by
  have hne : ¬(cycles.isEmpty = true) := by
    cases cycles with
    | nil => simp [selectCycle, List.find?] at hsel
    | cons a as => simp
  refine ⟨?_, ?_, ?_⟩
  · intro hb
    simp only [evaluateEOLStatus, if_neg hne, hsel, hb, beq_self_eq_true, if_pos]
  · intro hb s d hs hd
    have hb' : (mc.eolBoolean == some 1) = false := by
      simpa using hb
    have hsne : s ≠ "" := by
      intro h
      subst h
      simp [parseSimpleDate] at hd
    simp only [evaluateEOLStatus, if_neg hne, hsel, hb', Bool.false_eq_true, if_false, hs,
      if_pos hsne, hd]
    constructor
    · by_cases h1 : d ≤ today
      · simp [h1]
      · by_cases h2 : d < today + fd * 86400
        · cases hlv : mc.latestVersion <;> simp [h1, h2]
        · cases hlv : mc.latestVersion <;> simp [h1, h2]
    · intro hlt
      have h1 : ¬(d ≤ today) := by omega
      by_cases h2 : d < today + fd * 86400
      · cases hlv : mc.latestVersion <;> simp [h1, h2]
      · cases hlv : mc.latestVersion <;> simp [h1, h2]
  · intro heol hb hr0
    have hb' : (mc.eolBoolean == some 1) = false := by
      simpa using hb
    cases heol with
    | inl h =>
      simp only [evaluateEOLStatus, if_neg hne, hsel, hb', Bool.false_eq_true, if_false, h,
        maintainedResult]
      by_cases hm : (mc.isMaintained == 1) = true
      · simp [hm]
      · cases hlv : mc.latestVersion <;> simp [hm, hlv, hr0]
    | inr h =>
      simp only [evaluateEOLStatus, if_neg hne, hsel, hb', Bool.false_eq_true, if_false, h,
        maintainedResult]
      by_cases hm : (mc.isMaintained == 1) = true
      · simp [hm]
      · cases hlv : mc.latestVersion <;> simp [hm, hlv, hr0]

/-- Witness for C5: the boolean-EOL `python 2.7` cycle classifies as EOL. -/
theorem c5_witness :
    (evaluateEOLStatus 90 0 (initResult pyPkg) [pyCycle] "2.7").status = EOLStatus.eol :=
  (c5_evaluateEOLStatus_classification 90 0 (initResult pyPkg) [pyCycle] "2.7" pyCycle
    (by decide)).1 rfl

/-! ## Claim C6 -/

/-- **C6 counterexample.** The claim says the evaluator accepts an EOL date in
RFC3339 / `YYYY-MM-DDTHH:MM:SSZ` / `YYYY-MM-DD` form and always classifies from
the parsed date.  A matched, unmaintained cycle whose (long past) EOL date is
stored as `"2020-01-01T00:00:00Z"` nevertheless comes back `Unknown` — the
evaluator failed to parse the date and fell through to the maintained/Unknown
branch instead of classifying it EOL. -/
theorem c6_counterexample :
    (evaluateEOLStatus 90 (tsToSeconds ⟨2026, 10, 11, 0, 0, 0⟩)
        (initResult pyPkg) [rfcCycle] "3.9.1").status = EOLStatus.unknown
    ∧ EOLStatus.unknown ≠ EOLStatus.eol := by
  decide

/-- **C6 (amended).** The EOL status evaluator parses a matched cycle's EOL date
only in the plain `YYYY-MM-DD` format: a date it cannot parse that way (for
instance the RFC3339 forms) sends the evaluation to the maintained/Unknown branch
with no EOL date recorded, while a plain `YYYY-MM-DD` date is classified from the
parsed date (in particular, EOL when it is not after `today`) and recorded in the
result. -/
theorem c6_evaluator_date_format (fd today : Int) (r0 : ComponentResult)
    (cycles : List CycleRow) (version : String) (mc : CycleRow) (s : String)
    (hsel : selectCycle cycles version = some mc) (hb : mc.eolBoolean ≠ some 1)
    (hs : mc.eol = some s) :
    (parseSimpleDate s = none →
      (evaluateEOLStatus fd today r0 cycles version).status
        = (if mc.isMaintained == 1 then EOLStatus.active else r0.status)
      ∧ (evaluateEOLStatus fd today r0 cycles version).eolDate = r0.eolDate)
    ∧ (∀ d, parseSimpleDate s = some d → d ≤ today →
        (evaluateEOLStatus fd today r0 cycles version).status = EOLStatus.eol
        ∧ (evaluateEOLStatus fd today r0 cycles version).eolDate = s) := by
  have hne : ¬(cycles.isEmpty = true) := by
    cases cycles with
    | nil => simp [selectCycle, List.find?] at hsel
    | cons a as => simp
  have hb' : (mc.eolBoolean == some 1) = false := by
    simpa using hb
  constructor
  · intro hnone
    by_cases hse : s = ""
    · subst hse
      simp only [evaluateEOLStatus, if_neg hne, hsel, hb', Bool.false_eq_true, if_false,
        hs, ne_eq, not_true_eq_false, if_neg (by simp : ¬("" : String) ≠ ""),
        maintainedResult]
      by_cases hm : (mc.isMaintained == 1) = true
      · constructor
        · simp [hm]
        · cases hlv : mc.latestVersion <;> simp [hm, hlv]
      · constructor
        · cases hlv : mc.latestVersion <;> simp [hm, hlv]
        · cases hlv : mc.latestVersion <;> simp [hm, hlv]
    · simp only [evaluateEOLStatus, if_neg hne, hsel, hb', Bool.false_eq_true, if_false,
        hs, if_pos hse, hnone, maintainedResult]
      by_cases hm : (mc.isMaintained == 1) = true
      · constructor
        · simp [hm]
        · cases hlv : mc.latestVersion <;> simp [hm, hlv]
      · constructor
        · cases hlv : mc.latestVersion <;> simp [hm, hlv]
        · cases hlv : mc.latestVersion <;> simp [hm, hlv]
  · intro d hd hle
    have hsne : s ≠ "" := by
      intro h
      subst h
      simp [parseSimpleDate] at hd
    simp only [evaluateEOLStatus, if_neg hne, hsel, hb', Bool.false_eq_true, if_false,
      hs, if_pos hsne, hd, if_pos hle]
    constructor
    · trivial
    · cases hlv : mc.latestVersion <;> simp [hlv]

/-- Witness for C6: the RFC3339-dated cycle takes the fallthrough branch, and a
plain-dated past cycle classifies EOL. -/
theorem c6_witness :
    ((evaluateEOLStatus 90 (tsToSeconds ⟨2026, 10, 11, 0, 0, 0⟩)
        (initResult pyPkg) [rfcCycle] "3.9.1").status
      = (if rfcCycle.isMaintained == 1 then EOLStatus.active
         else (initResult pyPkg).status)
    ∧ (evaluateEOLStatus 90 (tsToSeconds ⟨2026, 10, 11, 0, 0, 0⟩)
        (initResult pyPkg) [rfcCycle] "3.9.1").eolDate = (initResult pyPkg).eolDate) :=
  (c6_evaluator_date_format 90 (tsToSeconds ⟨2026, 10, 11, 0, 0, 0⟩)
    (initResult pyPkg) [rfcCycle] "3.9.1" rfcCycle "2020-01-01T00:00:00Z"
    (by decide) (by decide) rfl).1 (by decide)

/-- Witness for C7: the major-version fallback is consulted exactly when no cycle
prefix-matches. -/
theorem c7_witness :
    selectCycle [row39] "4.0.0"
      = List.find? (fun c => matchesMajorVersion "4.0.0" c.cycle) [row39] :=
  c7_version_matching.2.2.2.1 [row39] "4.0.0" (by decide)

/-! ## Claim C8 -/

/-- **C8.** The staleness check is true when no prior sync timestamp exists, when
the stored timestamp is unparsable, and — for a parsable timestamp — exactly when
`now` minus the last full-sync instant exceeds `maxAge`; in particular,
immediately after a successful `FullSync` records its timestamp, a staleness
check with any non-negative `maxAge` reports false. -/
theorem c8_needsRefresh :
    (∀ maxAge now : Int, checkDBNeedsUpdate none maxAge now = true)
    ∧ (∀ (s : String) (maxAge now : Int), parseRFC3339 s = none →
        checkDBNeedsUpdate (some s) maxAge now = true)
    ∧ (∀ (s : String) (ts : Timestamp) (maxAge now : Int), parseRFC3339 s = some ts →
        (checkDBNeedsUpdate (some s) maxAge now = true ↔
          now - tsToSeconds ts > maxAge))
    ∧ (∀ (st : Store) (up : List ProductData) (cats : Option (List String))
        (now : Timestamp) (maxAge : Int), validTS now → 0 ≤ maxAge →
        checkDBNeedsUpdate ((FullSync st false up cats now).1).syncMeta.lastFullSync
          maxAge (tsToSeconds now) = false) := by
  refine ⟨?_, ?_, ?_, ?_⟩
  · intro maxAge now
    rfl
  · intro s maxAge now h
    simp [checkDBNeedsUpdate, h]
  · intro s ts maxAge now h
    simp [checkDBNeedsUpdate, h]
  · intro st up cats now maxAge hvalid hage
    rw [fullSync_meta]
    simp only [checkDBNeedsUpdate, Option.getD_some, parseRFC3339_formatTS now hvalid]
    simp only [sub_self, decide_eq_false_iff_not]
    omega

/-- Witness for C8: after a sync stamped `2026-10-11T07:05:00Z`, a staleness check
with a one-week `maxAge` at that same instant reports false. -/
theorem c8_witness :
    checkDBNeedsUpdate
        ((FullSync emptyStore false [] none ⟨2026, 10, 11, 7, 5, 0⟩).1).syncMeta.lastFullSync
        604800 (tsToSeconds ⟨2026, 10, 11, 7, 5, 0⟩) = false :=
  c8_needsRefresh.2.2.2 emptyStore [] none ⟨2026, 10, 11, 7, 5, 0⟩ 604800
    (by decide) (by decide)
